import Mathlib

/-!
Shallow embedding of `mineru_cli.py` (MinerU Cloud OCR CLI) and proofs
about the claims of its specification.

Strings manipulated character-wise by the Python code (error messages,
file names) are modelled as `List Char`; strings only compared for
equality (state labels, identifiers, config keys) are modelled as
`String`.  Machine-level details (actual HTTP traffic, the file system)
are modelled as explicit inputs: a poll loop receives the sequence of
status responses as a function of the tick index, and file-system
operations are recorded as events.
-/

/-! ## Character/string utilities (mirrors of Python primitives) -/

/-- Mirror of Python `str.lower()` restricted to the characters the code
compares (`Char.toLower` agrees with Python on ASCII). -/
def lowerL (s : List Char) : List Char := s.map Char.toLower

/-- Boolean prefix test on character lists. -/
def isPrefixOfL : List Char → List Char → Bool
  | [], _ => true
  | _ :: _, [] => false
  | a :: as, b :: bs => a == b && isPrefixOfL as bs

/-- Mirror of Python's substring test `needle in hay`. -/
def containsSub (needle : List Char) : List Char → Bool
  | [] => isPrefixOfL needle []
  | c :: cs => isPrefixOfL needle (c :: cs) || containsSub needle cs

/-- Index of the last occurrence of a dot in a file name
(Python `name.rfind('.')`, `none` when absent). -/
def lastDotIdx : List Char → Option Nat
  | [] => none
  | c :: cs =>
    match lastDotIdx cs with
    | some i => some (i + 1)
    | none => if c == '.' then some 0 else none

/-- Mirror of CPython `PurePath.suffix` on a file name: the part of the
name from the last dot on, provided that dot is neither the first nor
the last character; empty otherwise. -/
def pySuffix (name : List Char) : List Char :=
  match lastDotIdx name with
  | some i => if 0 < i && i + 1 < name.length then name.drop i else []
  | none => []

/-- Mirror of CPython `PurePath.stem` on a file name: the name with
`pySuffix` removed. -/
def pyStem (name : List Char) : List Char :=
  name.take (name.length - (pySuffix name).length)

/-- `pyStem` lifted to `String`. -/
def pyStemS (s : String) : String := String.mk (pyStem s.toList)

/-! ## API client error classification (`MinerUClient._request`) -/

/-- The needle of the first substring check in `_request`. -/
def AUTH_SUB : List Char := String.toList "auth"

/-- The needle of the second substring check in `_request`. -/
def TOKEN_SUB : List Char := String.toList "token"

/-- The three failure shapes raised by `MinerUClient._request`:
`AuthError` (spec: AuthenticationFailure), the generic `APIError`
carrying message and code (spec: RemoteServiceFailure), and the
`APIError` raised from a `requests.exceptions.RequestException`
(spec: TransportFailure). -/
inductive ReqFailure
  | authError (msg : List Char)
  | apiError (msg : List Char) (code : Int)
  | requestFailed (cause : List Char)
deriving DecidableEq

/-- What the HTTP layer did: either an envelope (numeric `code` plus
`msg`) was received, or the request raised a network-level exception. -/
inductive HttpOutcome
  | response (code : Int) (msg : List Char)
  | requestException (cause : List Char)

/-- The auth-error heuristic of `_request`:
`code == 401 or "auth" in error_msg.lower() or "token" in error_msg.lower()`. -/
def isAuthMsg (code : Int) (msg : List Char) : Bool :=
  code == 401 || containsSub AUTH_SUB (lowerL msg) || containsSub TOKEN_SUB (lowerL msg)

/-- Mirror of `MinerUClient._request`: a non-zero envelope code raises
`AuthError` under the heuristic and `APIError` otherwise; a zero code
returns the envelope; a network exception raises the transport-shaped
`APIError`. -/
def requestModel : HttpOutcome → Except ReqFailure (Int × List Char)
  | .response code msg =>
    if code != 0 then
      if isAuthMsg code msg then .error (.authError msg)
      else .error (.apiError msg code)
    else .ok (code, msg)
  | .requestException cause => .error (.requestFailed cause)

/-! ## Local file validation (`validate_file`, `get_file_extension`) -/

/-- Mirror of `get_file_extension`: `path.suffix.lower()`. -/
def get_file_extension (name : List Char) : List Char := lowerL (pySuffix name)

/-- Mirror of the module constant `SUPPORTED_FORMATS`. -/
def SUPPORTED_FORMATS : List (List Char) :=
  [".pdf", ".doc", ".docx", ".ppt", ".pptx", ".png", ".jpg", ".jpeg", ".html"].map
    String.toList

/-- A local path as `validate_file` observes it: its final-component
name and whether it exists on disk. -/
structure PyPath where
  name : List Char
  existsOnDisk : Bool
deriving DecidableEq

/-- The two error reports `validate_file` can print. -/
inductive VReport
  | fileNotFound
  | unsupportedFormat
deriving DecidableEq

/-- Python's membership test `x in l` on a list of strings. -/
def listElem (x : List Char) : List (List Char) → Bool
  | [] => false
  | y :: ys => x == y || listElem x ys

/-- Mirror of `validate_file`: returns `false` with a printed report
when the path does not exist or its lowercased suffix is unsupported;
returns `true` otherwise.  It never raises (total function). -/
def validate_file (p : PyPath) : Bool × List VReport :=
  if !p.existsOnDisk then (false, [.fileNotFound])
  else if !(listElem (get_file_extension p.name) SUPPORTED_FORMATS) then
    (false, [.unsupportedFormat])
  else (true, [])

/-! ## Batch results and the finish block of `wait_for_batch` (C1, C2) -/

/-- One entry of the `extract_result` list in a batch status response,
with the fields the code reads: `state`, `full_zip_url`, `file_name`. -/
structure ResultItem where
  state : String
  fullZipUrl : Option String
  fileName : Option String
deriving DecidableEq

/-- `failed_count = sum(1 for r in results if r.get("state") == "failed")`. -/
def failedCount (results : List ResultItem) : Nat :=
  results.countP (fun r => r.state == "failed")

/-- `done_count = sum(1 for r in results if r.get("state") == "done")`. -/
def doneCount (results : List ResultItem) : Nat :=
  results.countP (fun r => r.state == "done")

/-- The exit status `wait_for_batch` returns once every member is
terminal: `0 if failed_count == 0 else 1`. -/
def waitForBatchExit (results : List ResultItem) : Nat :=
  if failedCount results = 0 then 0 else 1

/-- Mirror of the tail of `cmd_batch` in the default (wait) mode: the
`for` loop calls `wait_for_batch` on each submitted batch but discards
each return value, and the command then executes `return 0`.  The first
component is the command's exit status; the second records the
discarded per-batch wait results. -/
def cmdBatchWaitAll (batches : List (List ResultItem)) : Nat × List Nat :=
  (0, batches.map waitForBatchExit)

/-- Python truthiness of an optional string
(`if expected_stem`, `if result.get("full_zip_url")`):
true exactly when present and non-empty. -/
def pyTruthyOptStr : Option String → Bool
  | none => false
  | some s => !(s == "")

/-- The download dispatch the finish block of `wait_for_batch` performs
for one result item: extract the archive flat into the output dir
(`download_result_flat`), extract it into a per-item subfolder
(`download_result` with the item's file name), or print the failure
line of a failed item. -/
inductive DAction
  | flat (url : String)
  | sub (url : String) (baseName : String)
  | failLine (fileName : String)
deriving DecidableEq

/-- The action of the finish block of `wait_for_batch` for one result
item, where `es` is the `expected_stem` argument and `n` is
`len(results)`:
`if state == "done" and full_zip_url: (flat if expected_stem and n == 1
else subfolder) elif state == "failed": failure line`. -/
def resultAction (es : Option String) (n : Nat) (r : ResultItem) : Option DAction :=
  if r.state == "done" && pyTruthyOptStr r.fullZipUrl then
    if pyTruthyOptStr es && n == 1 then some (.flat (r.fullZipUrl.getD ""))
    else some (.sub (r.fullZipUrl.getD "") (r.fileName.getD "result"))
  else if r.state == "failed" then some (.failLine (r.fileName.getD "Unknown"))
  else none

/-- All actions of the finish block of `wait_for_batch`, in order. -/
def finishActions (es : Option String) (results : List ResultItem) : List DAction :=
  results.filterMap (resultAction es results.length)

/-- Whether the finish block selected flat-unpack mode for any item. -/
def isFlatAction : DAction → Bool
  | .flat _ => true
  | _ => false

/-- Flat-unpack mode is selected on this wait. -/
def flatSelected (es : Option String) (results : List ResultItem) : Bool :=
  (finishActions es results).any isFlatAction

/-- The directory `download_result` extracts into, relative to the
output dir: `output_dir / Path(base_name).stem`. -/
def downloadResultSubdir (baseName : String) : String := pyStemS baseName

/-! ## Name resolution at line 806 of `wait_for_task` (C8)

The progress line `print(f"...{color(label, c)} {spin_char} {elapsed_str}...")`
evaluates the names `color`, `label`, `c`, `spin_char`, `elapsed_str` in
order; a name bound neither in the function's local scope nor at module
level raises `NameError`. -/

/-- The names bound in the local scope of `wait_for_task` when line 806
executes: the four parameters and the variables assigned on lines
785-804. -/
def waitTaskLocals : List String :=
  ["client", "task_id", "output_dir", "timeout",
   "start", "elapsed", "status", "state", "progress", "extracted", "total",
   "spinner", "spin_char", "elapsed_str"]

/-- The module-level names of `mineru_cli.py`: imports, constants,
classes and functions. -/
def moduleGlobals : List String :=
  ["argparse", "json", "os", "re", "sys", "time", "zipfile",
   "datetime", "Path", "Dict", "List", "Optional", "Tuple", "Union",
   "urlparse", "requests",
   "CONFIG_DIR", "CONFIG_FILE", "DEFAULT_OUTPUT_DIR", "API_BASE",
   "API_ENDPOINTS", "SUPPORTED_FORMATS", "Colors", "color",
   "load_config", "save_config", "get_token", "set_token", "ensure_token",
   "prompt_for_token", "get_default_output_dir",
   "APIError", "AuthError", "MinerUClient",
   "is_url", "extract_url", "get_file_extension", "generate_output_dir_name",
   "validate_file", "download_file", "extract_zip", "format_time",
   "print_progress", "handle_auth_error",
   "cmd_parse", "cmd_batch", "cmd_status", "cmd_token", "cmd_config",
   "cmd_diagnose", "wait_for_task", "wait_for_batch",
   "print_task_status", "print_batch_status",
   "download_result", "download_result_flat",
   "print_help", "cmd_postinstall", "main"]

/-- Python name resolution inside `wait_for_task`: locals, then module
globals (and builtins, none of which are relevant here). -/
def resolvesInWaitTask (n : String) : Bool :=
  waitTaskLocals.contains n || moduleGlobals.contains n

/-- The names the f-string of line 806 evaluates, in evaluation order. -/
def line806Names : List String :=
  ["color", "label", "c", "spin_char", "elapsed_str"]

/-- The first name of line 806 that fails to resolve, i.e. the name on
which Python raises `NameError` — or `none` if the line would print. -/
def line806MissingName : Option String :=
  line806Names.find? (fun n => !(resolvesInWaitTask n))

/-! ## The polling loops (`wait_for_task`, `wait_for_batch`) (C3, C4, C8)

Both loops are modelled over a discrete time base: the status responses
form a function of the tick index, tick `k` happens at elapsed time
`POLL_INTERVAL * k` (the call itself is instantaneous and
`time.sleep(5)` separates consecutive ticks), and the loop is given
enough fuel to cover the ticks up to the timeout.  The loops also
return the list of requests they sent to the remote service, so that
absence of a cancellation request is expressible. -/

/-- The requests a wait loop could conceivably send: a status query for
a job id at some tick, or a cancellation of a remote job (which the
client does not even implement — it must never appear). -/
inductive Req
  | statusQuery (id : String) (tick : Nat)
  | cancelJob (id : String)
deriving DecidableEq

/-- Whether a request is a cancellation. -/
def Req.isCancel : Req → Bool
  | .cancelJob _ => true
  | _ => false

/-- `time.sleep(5)`: the poll interval, in time units (seconds). -/
def POLL_INTERVAL : Nat := 5

/-- `state in ("done", "failed")` — the terminal-state test of
`wait_for_batch` (line 883). -/
def isTerminalState (s : String) : Bool := s == "done" || s == "failed"

/-- `all_finished = all(r.get("state") in ("done", "failed") for r in results)`. -/
def allFinished (results : List ResultItem) : Bool :=
  results.all (fun r => isTerminalState r.state)

/-- One status response of `client.get_batch_status`: the result list,
an `AuthError`, or another `APIError` with a message. -/
inductive BatchPoll
  | ok (results : List ResultItem)
  | authErr
  | apiErr (msg : String)

/-- How a run of `wait_for_batch` ends: normal return with an exit
status after all members turned terminal, return `1` on timeout, or an
`AuthError` propagating out of the loop (the `isinstance` re-raise at
line 904). -/
inductive BWaitResult
  | finished (code : Nat) (tick : Nat)
  | timedOut (tick : Nat)
  | authAborted (tick : Nat)
deriving DecidableEq

/-- The tick at which the batch wait ended. -/
def BWaitResult.tick : BWaitResult → Nat
  | .finished _ k => k
  | .timedOut k => k
  | .authAborted k => k

/-- The exit status of the batch wait: the computed code on normal
completion, `1` after the timeout report, none when an exception
propagates instead of returning. -/
def BWaitResult.exitCode : BWaitResult → Option Nat
  | .finished c _ => some c
  | .timedOut _ => some 1
  | .authAborted _ => none

/-- Mirror of the `wait_for_batch` loop.  At tick `k` (elapsed
`POLL_INTERVAL * k`): first the timeout check `elapsed > timeout`; then
the status query — `AuthError` is re-raised, any other `APIError` is
printed and the loop continues at the next tick, and on a normal
response the loop returns `0/1` once every member is terminal and
otherwise continues.  The fuel argument only bounds the recursion; the
theorems show `timeout / POLL_INTERVAL + 2` of it always suffices. -/
def waitForBatchLoop (id : String) (trace : Nat → BatchPoll) (T : Nat) :
    Nat → Nat → Option (BWaitResult × List Req)
  | 0, _ => none
  | fuel+1, k =>
    if POLL_INTERVAL * k > T then some (.timedOut k, [])
    else
      match trace k with
      | .authErr => some (.authAborted k, [.statusQuery id k])
      | .apiErr _ =>
          (waitForBatchLoop id trace T fuel (k+1)).map
            (fun p => (p.1, Req.statusQuery id k :: p.2))
      | .ok results =>
          if allFinished results then
            some (.finished (waitForBatchExit results) k, [.statusQuery id k])
          else
            (waitForBatchLoop id trace T fuel (k+1)).map
              (fun p => (p.1, Req.statusQuery id k :: p.2))

/-- A single-task status response as `wait_for_task` reads it. -/
structure TaskStatus where
  state : String
  extractedPages : Nat
  totalPages : Nat
  fullZipUrl : Option String
deriving DecidableEq

/-- One status response of `client.get_task_status`. -/
inductive TaskPoll
  | ok (st : TaskStatus)
  | authErr
  | apiErr (msg : String)

/-- How a run of `wait_for_task` ends.  `crashed` records the
`NameError` raised while rendering the progress line (line 806), which
is not an `APIError` and therefore propagates uncaught. -/
inductive TWaitResult
  | finishedDone (tick : Nat)
  | finishedFailed (tick : Nat)
  | timedOut (tick : Nat)
  | authAborted (tick : Nat)
  | crashed (tick : Nat) (missing : String)
deriving DecidableEq

/-- The tick at which the task wait ended. -/
def TWaitResult.tick : TWaitResult → Nat
  | .finishedDone k => k
  | .finishedFailed k => k
  | .timedOut k => k
  | .authAborted k => k
  | .crashed k _ => k

/-- The exit status of the task wait; none when an exception propagates
instead of returning. -/
def TWaitResult.exitCode : TWaitResult → Option Nat
  | .finishedDone _ => some 0
  | .finishedFailed _ => some 1
  | .timedOut _ => some 1
  | .authAborted _ => none
  | .crashed _ _ => none

/-- Mirror of the `wait_for_task` loop.  At tick `k`: the timeout check;
then the status query — `AuthError` re-raised, other `APIError` printed
and the loop continues — and on a normal response the progress line of
line 806 is rendered before the terminal-state checks, so an unresolved
name there ends the loop with `crashed` no matter the state. -/
def waitForTaskLoop (id : String) (trace : Nat → TaskPoll) (T : Nat) :
    Nat → Nat → Option (TWaitResult × List Req)
  | 0, _ => none
  | fuel+1, k =>
    if POLL_INTERVAL * k > T then some (.timedOut k, [])
    else
      match trace k with
      | .authErr => some (.authAborted k, [.statusQuery id k])
      | .apiErr _ =>
          (waitForTaskLoop id trace T fuel (k+1)).map
            (fun p => (p.1, Req.statusQuery id k :: p.2))
      | .ok st =>
          match line806MissingName with
          | some n => some (.crashed k n, [.statusQuery id k])
          | none =>
            if st.state == "done" then some (.finishedDone k, [.statusQuery id k])
            else if st.state == "failed" then some (.finishedFailed k, [.statusQuery id k])
            else
              (waitForTaskLoop id trace T fuel (k+1)).map
                (fun p => (p.1, Req.statusQuery id k :: p.2))

/-! ## Configuration store (`load_config`, `save_config`, `set_token`) (C9) -/

/-- A JSON scalar as stored in the config file. -/
inductive PyVal
  | pstr (s : String)
  | pnum (n : Int)
  | pbool (b : Bool)
deriving DecidableEq

/-- A JSON object, modelled as an insertion-ordered association list
(the shape `json.load`/`json.dump` round-trip preserves). -/
abbrev Config := List (String × PyVal)

/-- Python dict lookup `d.get(k)`. -/
def dictGet (k : String) : List (String × PyVal) → Option PyVal
  | [] => none
  | (k', v') :: rest => if k' = k then some v' else dictGet k rest

/-- Python dict assignment `d[k] = v`: replaces the value in place when
the key is present, appends otherwise. -/
def dictSet (k : String) (v : PyVal) : List (String × PyVal) → List (String × PyVal)
  | [] => [(k, v)]
  | (k', v') :: rest =>
    if k' = k then (k, v) :: rest else (k', v') :: dictSet k v rest

/-- Mirror of `load_config`: the parsed file content, or `{}` when the
file is missing or unparseable (both modelled as `none`). -/
def load_config : Option Config → Config
  | some c => c
  | none => []

/-- Mirror of `save_config`: the file now holds exactly the dumped dict. -/
def save_config (c : Config) : Option Config := some c

/-- Mirror of `set_token`: load the config, assign the `token` key, save. -/
def set_token (t : String) (file : Option Config) : Option Config :=
  save_config (dictSet "token" (.pstr t) (load_config file))

/-! ## Output Location computation (`cmd_parse`, `cmd_batch`) (C6, C7)

Paths are modelled as lists of segments: `p ++ [s]` is `p / s`,
`p.dropLast` is `p.parent`, and the last segment of a file path is its
name. -/

/-- Mirror of `generate_output_dir_name` with the wall-clock timestamp
made an explicit argument: the stem of the base name, the fixed product
tag, and the timestamp. -/
def generate_output_dir_name (baseName : String) (ts : String) : String :=
  pyStemS baseName ++ "_MinerU_" ++ ts

/-- The name (final segment) of a file path. -/
def segName (p : List String) : String := p.getLast?.getD ""

/-- Output dir of the local-file branch of `cmd_parse` (lines 494-500):
the explicit `-o` override when given, else the source file's parent
joined with the generated name. -/
def cmdParseLocalOutputDir (_cwd : List String) (outputArg : Option (List String))
    (filePath : List String) (ts : String) : List String :=
  match outputArg with
  | some o => o
  | none => filePath.dropLast ++ [generate_output_dir_name (segName filePath) ts]

/-- Output dir of the URL branches of `cmd_parse` (lines 426-433 and
459-466): the override when given, else the current working directory
joined with the generated name for the URL's file name. -/
def cmdParseUrlOutputDir (cwd : List String) (outputArg : Option (List String))
    (urlFileName : String) (ts : String) : List String :=
  match outputArg with
  | some o => o
  | none => cwd ++ [generate_output_dir_name urlFileName ts]

/-- Output dir of `cmd_batch` (lines 573-583): the override when given;
else, when at least one valid local file is present, the first file's
parent joined with the generated `batch` name; else (URL-only batch)
the current working directory joined with it. -/
def cmdBatchOutputDir (cwd : List String) (outputArg : Option (List String))
    (files : List (List String)) (ts : String) : List String :=
  match outputArg with
  | some o => o
  | none =>
    match files with
    | f :: _ => f.dropLast ++ [generate_output_dir_name "batch" ts]
    | [] => cwd ++ [generate_output_dir_name "batch" ts]

/-! ## File-system and network event traces of a command run (C6) -/

/-- The externally visible steps of a command run, in program order. -/
inductive Ev
  | computeOutPath
  | mkdirOut
  | submitTask
  | uploadFile
  | pollTick
  | writeFile
  | mkdirSub
  | extractZipEv
  | unlinkZip
deriving DecidableEq

/-- The event trace of the local-file happy path of `cmd_parse`:
compute the output path (line 495), create the directory (line 502),
submit (line 512), upload (line 517), poll (`wait_for_batch`), then in
`download_result_flat` write the archive, extract it into the output
dir and delete it. -/
def cmdParseLocalTrace (polls : Nat) : List Ev :=
  [.computeOutPath, .mkdirOut, .submitTask, .uploadFile] ++
    List.replicate polls .pollTick ++ [.writeFile, .extractZipEv, .unlinkZip]

/-- The event trace of a file-batch happy path of `cmd_batch` with one
result item: compute the output path (lines 577-583), create the
directory (line 585), submit (line 605), upload each file (line 611),
poll, then in `download_result` write the archive, create the per-item
subfolder, extract and delete. -/
def cmdBatchTrace (uploads polls : Nat) : List Ev :=
  [.computeOutPath, .mkdirOut, .submitTask] ++
    List.replicate uploads .uploadFile ++ List.replicate polls .pollTick ++
    [.writeFile, .mkdirSub, .extractZipEv, .unlinkZip]

/-- Whether an event is the creation of the Output Location. -/
def isMkdirOut : Ev → Bool
  | .mkdirOut => true
  | _ => false

/-- How many times a trace creates the Output Location. -/
def mkdirOutCount (tr : List Ev) : Nat := tr.countP isMkdirOut

/-- The reading of C6 under test: the Output Location is created
immediately before the first file write into it (the creation event is
adjacent to the first write event). -/
def mkdirJustBeforeFirstWrite (tr : List Ev) : Bool :=
  match tr.findIdx? isMkdirOut, tr.findIdx? (fun e => e == Ev.writeFile) with
  | some i, some j => i + 1 == j
  | _, _ => false

/-! ## Helper lemmas -/

/-- `listElem` agrees with list membership. -/
theorem listElem_iff_mem (x : List Char) (l : List (List Char)) :
    listElem x l = true ↔ x ∈ l := by
  induction l with
  | nil => simp [listElem]
  | cons y ys ih => simp [listElem, ih]

/-- The auth-error heuristic, spelled out as a disjunction. -/
theorem isAuthMsg_eq_true_iff (code : Int) (msg : List Char) :
    isAuthMsg code msg = true ↔
      (code = 401 ∨ containsSub AUTH_SUB (lowerL msg) = true ∨
        containsSub TOKEN_SUB (lowerL msg) = true) := by
  simp [isAuthMsg, Bool.or_eq_true, or_assoc]

/-- Assigning key `k` leaves every other key's binding unchanged. -/
theorem dictGet_dictSet_ne (j k : String) (v : PyVal) (d : List (String × PyVal))
    (h : j ≠ k) : dictGet j (dictSet k v d) = dictGet j d := by
  induction d with
  | nil => simp [dictSet, dictGet, Ne.symm h]
  | cons hd tl ih =>
    obtain ⟨k', v'⟩ := hd
    by_cases hk : k' = k
    · subst hk
      simp [dictSet, dictGet, Ne.symm h]
    · simp [dictSet, dictGet, hk, ih]

/-- Assigning key `k` makes its binding the assigned value. -/
theorem dictGet_dictSet_self (k : String) (v : PyVal) (d : List (String × PyVal)) :
    dictGet k (dictSet k v d) = some v := by
  induction d with
  | nil => simp [dictSet, dictGet]
  | cons hd tl ih =>
    obtain ⟨k', v'⟩ := hd
    by_cases hk : k' = k
    · subst hk
      simp [dictSet, dictGet]
    · simp [dictSet, dictGet, hk, ih]

/-! ## Claim theorems -/

/-- C1: the claim says the batch command's exit status is 0 iff no
member failed, in particular that `cmd_batch` exits 1 when a member
failed.  The wait function itself computes that status
(`waitForBatchExit` is 1 on a one-member batch whose member failed),
but `cmd_batch` discards the value returned by `wait_for_batch` (line
628) and returns 0 unconditionally (line 629), so the batch command
exits 0 even though a member failed: the code contradicts the design of
its own wait function.  This theorem evaluates both at the failing
input. -/
theorem C1_batch_exit_discarded :
    waitForBatchExit [⟨"failed", none, some "a.pdf"⟩] = 1 ∧
    (cmdBatchWaitAll [[⟨"failed", none, some "a.pdf"⟩]]).1 = 0 ∧
    (cmdBatchWaitAll [[⟨"failed", none, some "a.pdf"⟩]]).2 = [1] :=
  ⟨rfl, rfl, rfl⟩

/-- C5: for a non-zero envelope code, `_request` raises the
authentication failure iff the code is 401 or the lowercased message
contains `auth` or `token`; otherwise it raises the generic API failure
carrying message and code; and a network-level request error raises the
transport failure carrying the cause. -/
theorem C5_request_classification (code : Int) (msg cause : List Char)
    (h : code ≠ 0) :
    (requestModel (.response code msg) = .error (.authError msg) ↔
      (code = 401 ∨ containsSub AUTH_SUB (lowerL msg) = true ∨
        containsSub TOKEN_SUB (lowerL msg) = true)) ∧
    (¬(code = 401 ∨ containsSub AUTH_SUB (lowerL msg) = true ∨
        containsSub TOKEN_SUB (lowerL msg) = true) →
      requestModel (.response code msg) = .error (.apiError msg code)) ∧
    requestModel (.requestException cause) = .error (.requestFailed cause) := by
  have hb : (code != 0) = true := bne_iff_ne.mpr h
  refine ⟨?_, ?_, rfl⟩
  · rw [← isAuthMsg_eq_true_iff]
    by_cases ha : isAuthMsg code msg = true
    · simp [requestModel, hb, ha]
    · simp [requestModel, hb, ha]
  · intro hn
    rw [← isAuthMsg_eq_true_iff] at hn
    simp [requestModel, hb, hn]

/-- C5 witness: a code-500 response whose message mentions a token is
classified as an authentication failure, and a network exception as a
transport failure. -/
theorem C5_request_classification_witness :
    requestModel (.response 500 ("Invalid Token".toList)) =
      .error (.authError ("Invalid Token".toList)) ∧
    requestModel (.requestException ("connection reset".toList)) =
      .error (.requestFailed ("connection reset".toList)) := by
  have h := C5_request_classification 500 ("Invalid Token".toList)
    ("connection reset".toList) (by decide)
  exact ⟨h.1.mpr (Or.inr (Or.inr (by decide))), h.2.2⟩

/-- C8: the claim says each poll of a single task renders a textual
state label without an unhandled internal error.  But the progress line
of `wait_for_task` (line 806) reads the names `label` and `c`, which
are bound neither in the function nor at module level (the
`states_display` lookup that binds them exists only in
`print_task_status`), so Python raises an unhandled `NameError` on the
first poll whose status query succeeds — here the very first tick of a
run with a `running 1/2 pages` response — and no label is ever
rendered. -/
theorem C8_progress_line_name_error :
    line806MissingName = some "label" ∧
    waitForTaskLoop "tid" (fun _ => TaskPoll.ok ⟨"running", 1, 2, none⟩) 1800 2 0 =
      some (.crashed 0 "label", [.statusQuery "tid" 0]) :=
  ⟨rfl, rfl⟩

/-- C9: `set_token` rewrites the config file with only the `token`
field changed: every other key keeps its previous binding, and `token`
is bound to the new value. -/
theorem C9_set_token_frame (file : Option Config) (t : String) (k : String)
    (hk : k ≠ "token") :
    dictGet k (load_config (set_token t file)) = dictGet k (load_config file) ∧
    dictGet "token" (load_config (set_token t file)) = some (.pstr t) := by
  constructor
  · exact dictGet_dictSet_ne k "token" (.pstr t) (load_config file) hk
  · exact dictGet_dictSet_self "token" (.pstr t) (load_config file)

/-- C9 witness: updating the token on a config that also holds
`output_dir` preserves `output_dir` and rewrites `token`. -/
theorem C9_set_token_frame_witness :
    dictGet "output_dir"
        (load_config (set_token "newtoken"
          (some [("output_dir", .pstr "/data"), ("token", .pstr "old")]))) =
      some (.pstr "/data") ∧
    dictGet "token"
        (load_config (set_token "newtoken"
          (some [("output_dir", .pstr "/data"), ("token", .pstr "old")]))) =
      some (.pstr "newtoken") := by
  have h := C9_set_token_frame
    (some [("output_dir", PyVal.pstr "/data"), ("token", PyVal.pstr "old")])
    "newtoken" "output_dir" (by decide)
  exact ⟨h.1.trans rfl, h.2⟩

/-- C10: `validate_file` returns true iff the path exists and the
lowercased suffix of its name is in the supported-format set (so
extension matching is case-insensitive), and on a false result it has
printed a report — it returns rather than raising. -/
theorem C10_validate_file_characterization (p : PyPath) :
    ((validate_file p).1 = true ↔
      (p.existsOnDisk = true ∧ lowerL (pySuffix p.name) ∈ SUPPORTED_FORMATS)) ∧
    ((validate_file p).1 = false → (validate_file p).2 ≠ []) := by
  obtain ⟨name, ex⟩ := p
  cases ex with
  | false => simp [validate_file]
  | true =>
    by_cases hm : lowerL (pySuffix name) ∈ SUPPORTED_FORMATS
    · have hc : listElem (lowerL (pySuffix name)) SUPPORTED_FORMATS = true :=
        (listElem_iff_mem _ _).mpr hm
      simp [validate_file, get_file_extension, hc, hm]
    · have hc : listElem (lowerL (pySuffix name)) SUPPORTED_FORMATS = false := by
        rw [Bool.eq_false_iff]
        intro hco
        exact hm ((listElem_iff_mem _ _).mp hco)
      simp [validate_file, get_file_extension, hc, hm]

/-- C10 witness: an existing file named `X.PDF` (uppercase extension)
is accepted. -/
theorem C10_validate_file_witness :
    (validate_file ⟨"X.PDF".toList, true⟩).1 = true :=
  (C10_validate_file_characterization ⟨"X.PDF".toList, true⟩).1.mpr
    ⟨rfl, by decide⟩

/-- C2 counterexample: a completed batch wait over exactly one tracked
item, with no `expected_stem` supplied (the `cmd_batch` path calls
`wait_for_batch` without one), does not select flat-unpack mode — it
dispatches `download_result` into a subfolder — although the tracked
item count is exactly 1, refuting "flat iff count = 1". -/
theorem C2_flat_iff_count_counterexample :
    ([⟨"done", some "u", some "a.pdf"⟩] : List ResultItem).length = 1 ∧
    flatSelected none [⟨"done", some "u", some "a.pdf"⟩] = false ∧
    finishActions none [⟨"done", some "u", some "a.pdf"⟩] =
      [DAction.sub "u" "a.pdf"] :=
  ⟨rfl, by decide, by decide⟩

/-- C2 amended: flat-unpack mode is selected iff an `expected_stem` was
supplied (only the single-file `cmd_parse` path supplies one) AND the
tracked item count is exactly 1 AND that item is done with a download
URL; every done item outside that case — in particular every member of
a batch with 2 or more items — is dispatched to `download_result`,
which unpacks into the subdirectory named after the item's stem. -/
theorem C2_flat_mode_amended (es : Option String) (results : List ResultItem) :
    (flatSelected es results = true ↔
      (pyTruthyOptStr es = true ∧ results.length = 1 ∧
        ∃ r ∈ results, (r.state == "done" && pyTruthyOptStr r.fullZipUrl) = true)) ∧
    (∀ r ∈ results, (r.state == "done" && pyTruthyOptStr r.fullZipUrl) = true →
      (pyTruthyOptStr es && results.length == 1) = false →
      DAction.sub (r.fullZipUrl.getD "") (r.fileName.getD "result") ∈
        finishActions es results ∧
      downloadResultSubdir (r.fileName.getD "result") =
        pyStemS (r.fileName.getD "result")) := by
  constructor
  · constructor
    · intro hf
      rw [flatSelected, List.any_eq_true] at hf
      obtain ⟨a, ha, hfa⟩ := hf
      rw [finishActions, List.mem_filterMap] at ha
      obtain ⟨r, hr, hra⟩ := ha
      by_cases hd : (r.state == "done" && pyTruthyOptStr r.fullZipUrl) = true
      · rw [resultAction, if_pos hd] at hra
        by_cases hc : (pyTruthyOptStr es && results.length == 1) = true
        · rw [Bool.and_eq_true] at hc
          exact ⟨hc.1, by simpa using hc.2, r, hr, hd⟩
        · rw [if_neg hc] at hra
          have := Option.some.inj hra
          rw [← this] at hfa
          simp [isFlatAction] at hfa
      · rw [resultAction, if_neg hd] at hra
        by_cases hf2 : (r.state == "failed") = true
        · rw [if_pos hf2] at hra
          have := Option.some.inj hra
          rw [← this] at hfa
          simp [isFlatAction] at hfa
        · rw [if_neg hf2] at hra
          exact absurd hra (by simp)
    · rintro ⟨h1, h2, r, hr, hd⟩
      obtain ⟨r0, rfl⟩ := List.length_eq_one.mp h2
      have hrr : r = r0 := by simpa using hr
      subst hrr
      rw [flatSelected, List.any_eq_true]
      refine ⟨.flat (r.fullZipUrl.getD ""), ?_, by simp [isFlatAction]⟩
      rw [finishActions, List.mem_filterMap]
      refine ⟨r, by simp, ?_⟩
      rw [resultAction, if_pos hd, if_pos (by simp [h1])]
  · intro r hr hd hc
    refine ⟨?_, rfl⟩
    rw [finishActions, List.mem_filterMap]
    refine ⟨r, hr, ?_⟩
    rw [resultAction, if_pos hd, if_neg (by simp [hc])]

/-- C2 witness: the single-file parse path (an `expected_stem` present,
one tracked item) selects flat mode, while the same one-item batch
without a stem dispatches into the `a` subfolder. -/
theorem C2_flat_mode_witness :
    flatSelected (some "doc") [⟨"done", some "u", some "doc.pdf"⟩] = true ∧
    DAction.sub "u" "a.pdf" ∈
      finishActions none [⟨"done", some "u", some "a.pdf"⟩] := by
  have h1 := (C2_flat_mode_amended (some "doc")
    [⟨"done", some "u", some "doc.pdf"⟩]).1
  have h2 := (C2_flat_mode_amended none [⟨"done", some "u", some "a.pdf"⟩]).2
  refine ⟨h1.mpr ⟨rfl, rfl, ⟨"done", some "u", some "doc.pdf"⟩, by simp, rfl⟩, ?_⟩
  exact (h2 ⟨"done", some "u", some "a.pdf"⟩ (by simp) rfl rfl).1

/-- C6 counterexample: on the local-file path of `cmd_parse` the Output
Location is created (line 502) immediately after its path is computed
and before submission (line 512) — not "only just before the first file
write": the creation event is at index 1, submission at index 2, and
the first write into the directory only happens after polling. -/
theorem C6_lazy_creation_counterexample :
    mkdirJustBeforeFirstWrite (cmdParseLocalTrace 1) = false ∧
    (cmdParseLocalTrace 1).findIdx? isMkdirOut = some 1 ∧
    (cmdParseLocalTrace 1).findIdx? (fun e => e == Ev.submitTask) = some 2 ∧
    (cmdParseLocalTrace 1).findIdx? (fun e => e == Ev.writeFile) = some 5 := by
  refine ⟨by decide, by decide, by decide, by decide⟩

/-- C6 amended: the Output Location path is computed before submission
(so it can be displayed), and the directory is created on disk
immediately after the path is computed — before submission and polling,
not lazily at the first file write; it is created exactly once per run,
so submission and polling themselves create no directory. -/
theorem C6_eager_creation_amended (uploads polls : Nat) :
    (cmdParseLocalTrace polls).take 3 =
      [Ev.computeOutPath, Ev.mkdirOut, Ev.submitTask] ∧
    mkdirOutCount (cmdParseLocalTrace polls) = 1 ∧
    (cmdBatchTrace uploads polls).take 3 =
      [Ev.computeOutPath, Ev.mkdirOut, Ev.submitTask] ∧
    mkdirOutCount (cmdBatchTrace uploads polls) = 1 := by
  refine ⟨rfl, ?_, rfl, ?_⟩
  · simp [mkdirOutCount, cmdParseLocalTrace, List.countP_append,
      List.countP_replicate, List.countP_cons, isMkdirOut]
  · simp [mkdirOutCount, cmdBatchTrace, List.countP_append,
      List.countP_replicate, List.countP_cons, isMkdirOut]

/-- C7 counterexample: a batch containing one valid local file
`/home/u/a.pdf`, run with the working directory `/tmp` and no output
override, roots its Output Location at the file's parent `/home/u` —
not at the current working directory as the claim states for batches. -/
theorem C7_batch_root_counterexample :
    cmdBatchOutputDir ["tmp"] none [["home", "u", "a.pdf"]] "20260101_000000" =
      ["home", "u", "batch_MinerU_20260101_000000"] ∧
    (cmdBatchOutputDir ["tmp"] none [["home", "u", "a.pdf"]]
        "20260101_000000").take 1 ≠ ["tmp"] := by
  refine ⟨by decide, by decide⟩

/-- C7 amended: the Output Location is rooted at the explicit output
override when one is given; otherwise, for a single local-file input,
at the source file's parent; for a batch containing at least one valid
local file, at the first file's parent; and for URL-only batches and
single URL inputs, at the current working directory. -/
theorem C7_output_root_amended (cwd p fp : List String) (uf ts : String)
    (files : List (List String)) :
    cmdParseLocalOutputDir cwd (some p) fp ts = p ∧
    cmdParseUrlOutputDir cwd (some p) uf ts = p ∧
    cmdBatchOutputDir cwd (some p) files ts = p ∧
    cmdParseLocalOutputDir cwd none fp ts =
      fp.dropLast ++ [generate_output_dir_name (segName fp) ts] ∧
    cmdParseUrlOutputDir cwd none uf ts =
      cwd ++ [generate_output_dir_name uf ts] ∧
    (∀ f fs, files = f :: fs →
      cmdBatchOutputDir cwd none files ts =
        f.dropLast ++ [generate_output_dir_name "batch" ts]) ∧
    (files = [] →
      cmdBatchOutputDir cwd none files ts =
        cwd ++ [generate_output_dir_name "batch" ts]) := by
  refine ⟨rfl, rfl, rfl, rfl, rfl, ?_, ?_⟩
  · rintro f fs rfl
    rfl
  · rintro rfl
    rfl

/-- C7 witness: with no override, a one-file batch roots at the file's
parent and a single local file roots at its parent. -/
theorem C7_output_root_witness :
    cmdBatchOutputDir ["w"] none [["d", "x.pdf"]] "ts0" =
      ["d", "batch_MinerU_ts0"] ∧
    cmdParseLocalOutputDir ["w"] none ["d", "a.pdf"] "ts0" =
      ["d", "a_MinerU_ts0"] := by
  have h := C7_output_root_amended ["w"] ["o"] ["d", "a.pdf"] "u" "ts0"
    [["d", "x.pdf"]]
  exact ⟨(h.2.2.2.2.2.1 ["d", "x.pdf"] [] rfl).trans (by decide),
    (h.2.2.2.1).trans (by decide)⟩

/-! ## Loop lemmas for C3 and C4 -/

/-- One-step unfolding of the batch wait loop at positive fuel. -/
theorem waitForBatchLoop_succ (id : String) (trace : Nat → BatchPoll)
    (T fuel k : Nat) :
    waitForBatchLoop id trace T (fuel + 1) k =
      if POLL_INTERVAL * k > T then some (.timedOut k, [])
      else
        match trace k with
        | .authErr => some (.authAborted k, [.statusQuery id k])
        | .apiErr _ =>
            (waitForBatchLoop id trace T fuel (k+1)).map
              (fun p => (p.1, Req.statusQuery id k :: p.2))
        | .ok results =>
            if allFinished results then
              some (.finished (waitForBatchExit results) k, [.statusQuery id k])
            else
              (waitForBatchLoop id trace T fuel (k+1)).map
                (fun p => (p.1, Req.statusQuery id k :: p.2)) := rfl

/-- Fuel `fuel + 1` suffices for the batch wait once the timeout tick
`T / POLL_INTERVAL + 1` is within reach: the loop always returns. -/
theorem waitForBatchLoop_total (id : String) (trace : Nat → BatchPoll) (T : Nat) :
    ∀ fuel k, T / POLL_INTERVAL < k + fuel →
      ∃ p, waitForBatchLoop id trace T (fuel + 1) k = some p := by
  intro fuel
  induction fuel with
  | zero =>
    intro k hk
    have h5 : POLL_INTERVAL * k > T := by
      simp only [POLL_INTERVAL] at hk ⊢
      omega
    exact ⟨(.timedOut k, []), by rw [waitForBatchLoop_succ, if_pos h5]⟩
  | succ fuel ih =>
    intro k hk
    by_cases h5 : POLL_INTERVAL * k > T
    · exact ⟨(.timedOut k, []), by rw [waitForBatchLoop_succ, if_pos h5]⟩
    · cases htr : trace k with
      | authErr =>
        exact ⟨(.authAborted k, [.statusQuery id k]),
          by rw [waitForBatchLoop_succ, if_neg h5, htr]⟩
      | apiErr m =>
        obtain ⟨p, hp⟩ := ih (k + 1) (by omega)
        refine ⟨(p.1, Req.statusQuery id k :: p.2), ?_⟩
        rw [waitForBatchLoop_succ, if_neg h5, htr, hp]
        rfl
      | ok rs =>
        by_cases hfin : allFinished rs = true
        · refine ⟨(.finished (waitForBatchExit rs) k, [.statusQuery id k]), ?_⟩
          rw [waitForBatchLoop_succ, if_neg h5, htr]
          simp [hfin]
        · obtain ⟨p, hp⟩ := ih (k + 1) (by omega)
          refine ⟨(p.1, Req.statusQuery id k :: p.2), ?_⟩
          rw [waitForBatchLoop_succ, if_neg h5, htr, hp]
          simp [hfin]

/-- Whatever the batch wait returns, it ends no later than elapsed time
`T + POLL_INTERVAL`. -/
theorem waitForBatchLoop_tick_le (id : String) (trace : Nat → BatchPoll) (T : Nat) :
    ∀ fuel k p, POLL_INTERVAL * k ≤ T + POLL_INTERVAL →
      waitForBatchLoop id trace T fuel k = some p →
      POLL_INTERVAL * p.1.tick ≤ T + POLL_INTERVAL := by
  intro fuel
  induction fuel with
  | zero =>
    intro k p _ h
    simp [waitForBatchLoop] at h
  | succ fuel ih =>
    intro k p hk h
    by_cases h5 : POLL_INTERVAL * k > T
    · simp only [waitForBatchLoop, if_pos h5] at h
      obtain rfl := Option.some.inj h
      simpa [BWaitResult.tick] using hk
    · have hk1 : POLL_INTERVAL * (k + 1) ≤ T + POLL_INTERVAL := by
        simp only [POLL_INTERVAL] at h5 ⊢
        omega
      have hle : POLL_INTERVAL * k ≤ T + POLL_INTERVAL := by
        simp only [POLL_INTERVAL] at h5 ⊢
        omega
      cases htr : trace k with
      | authErr =>
        simp [waitForBatchLoop, h5, htr] at h
        rw [← h]
        simpa [BWaitResult.tick] using hle
      | apiErr m =>
        simp only [waitForBatchLoop, htr] at h
        rw [if_neg h5] at h
        obtain ⟨q, hq, hpq⟩ := Option.map_eq_some'.mp h
        have := ih (k + 1) q hk1 hq
        rw [← hpq]
        simpa using this
      | ok rs =>
        by_cases hfin : allFinished rs = true
        · simp [waitForBatchLoop, h5, htr, hfin] at h
          rw [← h]
          simpa [BWaitResult.tick] using hle
        · simp only [waitForBatchLoop, htr] at h
          rw [if_neg h5] at h
          simp only [hfin, Bool.false_eq_true, if_false] at h
          obtain ⟨q, hq, hpq⟩ := Option.map_eq_some'.mp h
          have := ih (k + 1) q hk1 hq
          rw [← hpq]
          simpa using this

/-- Every request the batch wait sends is a status query for the batch
id it was given: the tracked job never changes and no cancellation is
ever sent. -/
theorem waitForBatchLoop_queries (id : String) (trace : Nat → BatchPoll) (T : Nat) :
    ∀ fuel k p, waitForBatchLoop id trace T fuel k = some p →
      ∀ q ∈ p.2, ∃ j, q = Req.statusQuery id j := by
  intro fuel
  induction fuel with
  | zero =>
    intro k p h
    simp [waitForBatchLoop] at h
  | succ fuel ih =>
    intro k p h
    by_cases h5 : POLL_INTERVAL * k > T
    · simp only [waitForBatchLoop, if_pos h5] at h
      obtain rfl := Option.some.inj h
      intro q hq
      simp at hq
    · cases htr : trace k with
      | authErr =>
        simp only [waitForBatchLoop, htr] at h
        rw [if_neg h5] at h
        obtain rfl := Option.some.inj h
        intro q hq
        simp at hq
        exact ⟨k, hq⟩
      | apiErr m =>
        simp only [waitForBatchLoop, htr] at h
        rw [if_neg h5] at h
        obtain ⟨a, ha, hpq⟩ := Option.map_eq_some'.mp h
        intro q hq
        rw [← hpq] at hq
        simp at hq
        rcases hq with hq | hq
        · exact ⟨k, hq⟩
        · exact ih (k + 1) a ha q hq
      | ok rs =>
        by_cases hfin : allFinished rs = true
        · simp only [waitForBatchLoop, htr] at h
          rw [if_neg h5] at h
          simp only [hfin, if_true] at h
          obtain rfl := Option.some.inj h
          intro q hq
          simp at hq
          exact ⟨k, hq⟩
        · simp only [waitForBatchLoop, htr] at h
          rw [if_neg h5] at h
          simp only [hfin, Bool.false_eq_true, if_false] at h
          obtain ⟨a, ha, hpq⟩ := Option.map_eq_some'.mp h
          intro q hq
          rw [← hpq] at hq
          simp at hq
          rcases hq with hq | hq
          · exact ⟨k, hq⟩
          · exact ih (k + 1) a ha q hq

/-- One-step unfolding of the task wait loop at positive fuel. -/
theorem waitForTaskLoop_succ (id : String) (trace : Nat → TaskPoll)
    (T fuel k : Nat) :
    waitForTaskLoop id trace T (fuel + 1) k =
      if POLL_INTERVAL * k > T then some (.timedOut k, [])
      else
        match trace k with
        | .authErr => some (.authAborted k, [.statusQuery id k])
        | .apiErr _ =>
            (waitForTaskLoop id trace T fuel (k+1)).map
              (fun p => (p.1, Req.statusQuery id k :: p.2))
        | .ok st =>
            match line806MissingName with
            | some n => some (.crashed k n, [.statusQuery id k])
            | none =>
              if st.state == "done" then some (.finishedDone k, [.statusQuery id k])
              else if st.state == "failed" then
                some (.finishedFailed k, [.statusQuery id k])
              else
                (waitForTaskLoop id trace T fuel (k+1)).map
                  (fun p => (p.1, Req.statusQuery id k :: p.2)) := rfl

/-- Fuel `fuel + 1` suffices for the task wait once the timeout tick is
within reach: the loop always stops — by returning or by the
propagating exception recorded in its outcome. -/
theorem waitForTaskLoop_total (id : String) (trace : Nat → TaskPoll) (T : Nat) :
    ∀ fuel k, T / POLL_INTERVAL < k + fuel →
      ∃ p, waitForTaskLoop id trace T (fuel + 1) k = some p := by
  intro fuel
  induction fuel with
  | zero =>
    intro k hk
    have h5 : POLL_INTERVAL * k > T := by
      simp only [POLL_INTERVAL] at hk ⊢
      omega
    exact ⟨(.timedOut k, []), by rw [waitForTaskLoop_succ, if_pos h5]⟩
  | succ fuel ih =>
    intro k hk
    by_cases h5 : POLL_INTERVAL * k > T
    · exact ⟨(.timedOut k, []), by rw [waitForTaskLoop_succ, if_pos h5]⟩
    · cases htr : trace k with
      | authErr =>
        exact ⟨(.authAborted k, [.statusQuery id k]),
          by rw [waitForTaskLoop_succ, if_neg h5, htr]⟩
      | apiErr m =>
        obtain ⟨p, hp⟩ := ih (k + 1) (by omega)
        refine ⟨(p.1, Req.statusQuery id k :: p.2), ?_⟩
        rw [waitForTaskLoop_succ, if_neg h5, htr, hp]
        rfl
      | ok st =>
        cases hlm : line806MissingName with
        | some n =>
          refine ⟨(.crashed k n, [.statusQuery id k]), ?_⟩
          rw [waitForTaskLoop_succ, if_neg h5, htr]
          simp [hlm]
        | none =>
          by_cases hd : (st.state == "done") = true
          · refine ⟨(.finishedDone k, [.statusQuery id k]), ?_⟩
            rw [waitForTaskLoop_succ, if_neg h5, htr]
            simp [hlm, hd]
          · by_cases hf : (st.state == "failed") = true
            · refine ⟨(.finishedFailed k, [.statusQuery id k]), ?_⟩
              rw [waitForTaskLoop_succ, if_neg h5, htr]
              simp [hlm, hd, hf]
            · obtain ⟨p, hp⟩ := ih (k + 1) (by omega)
              refine ⟨(p.1, Req.statusQuery id k :: p.2), ?_⟩
              rw [waitForTaskLoop_succ, if_neg h5, htr, hp]
              simp [hlm, hd, hf]

/-- Whatever the task wait does, it stops no later than elapsed time
`T + POLL_INTERVAL`. -/
theorem waitForTaskLoop_tick_le (id : String) (trace : Nat → TaskPoll) (T : Nat) :
    ∀ fuel k p, POLL_INTERVAL * k ≤ T + POLL_INTERVAL →
      waitForTaskLoop id trace T fuel k = some p →
      POLL_INTERVAL * p.1.tick ≤ T + POLL_INTERVAL := by
  intro fuel
  induction fuel with
  | zero =>
    intro k p _ h
    simp [waitForTaskLoop] at h
  | succ fuel ih =>
    intro k p hk h
    by_cases h5 : POLL_INTERVAL * k > T
    · rw [waitForTaskLoop_succ, if_pos h5] at h
      obtain rfl := Option.some.inj h
      simpa [TWaitResult.tick] using hk
    · have hk1 : POLL_INTERVAL * (k + 1) ≤ T + POLL_INTERVAL := by
        simp only [POLL_INTERVAL] at h5 ⊢
        omega
      have hle : POLL_INTERVAL * k ≤ T + POLL_INTERVAL := by
        simp only [POLL_INTERVAL] at h5 ⊢
        omega
      cases htr : trace k with
      | authErr =>
        rw [waitForTaskLoop_succ, if_neg h5, htr] at h
        obtain rfl := Option.some.inj h
        simpa [TWaitResult.tick] using hle
      | apiErr m =>
        rw [waitForTaskLoop_succ, if_neg h5, htr] at h
        obtain ⟨q, hq, hpq⟩ := Option.map_eq_some'.mp h
        have := ih (k + 1) q hk1 hq
        rw [← hpq]
        simpa using this
      | ok st =>
        rw [waitForTaskLoop_succ, if_neg h5, htr] at h
        cases hlm : line806MissingName with
        | some n =>
          rw [hlm] at h
          obtain rfl := Option.some.inj h
          simpa [TWaitResult.tick] using hle
        | none =>
          rw [hlm] at h
          by_cases hd : (st.state == "done") = true
          · simp only [hd, if_true] at h
            obtain rfl := Option.some.inj h
            simpa [TWaitResult.tick] using hle
          · by_cases hf : (st.state == "failed") = true
            · simp only [hd, hf, Bool.false_eq_true, if_false, if_true] at h
              obtain rfl := Option.some.inj h
              simpa [TWaitResult.tick] using hle
            · simp only [hd, hf, Bool.false_eq_true, if_false] at h
              obtain ⟨q, hq, hpq⟩ := Option.map_eq_some'.mp h
              have := ih (k + 1) q hk1 hq
              rw [← hpq]
              simpa using this

/-- Every request the task wait sends is a status query for the task id
it was given: the tracked job never changes and no cancellation is ever
sent. -/
theorem waitForTaskLoop_queries (id : String) (trace : Nat → TaskPoll) (T : Nat) :
    ∀ fuel k p, waitForTaskLoop id trace T fuel k = some p →
      ∀ q ∈ p.2, ∃ j, q = Req.statusQuery id j := by
  intro fuel
  induction fuel with
  | zero =>
    intro k p h
    simp [waitForTaskLoop] at h
  | succ fuel ih =>
    intro k p h
    by_cases h5 : POLL_INTERVAL * k > T
    · rw [waitForTaskLoop_succ, if_pos h5] at h
      obtain rfl := Option.some.inj h
      intro q hq
      simp at hq
    · cases htr : trace k with
      | authErr =>
        rw [waitForTaskLoop_succ, if_neg h5, htr] at h
        obtain rfl := Option.some.inj h
        intro q hq
        simp at hq
        exact ⟨k, hq⟩
      | apiErr m =>
        rw [waitForTaskLoop_succ, if_neg h5, htr] at h
        obtain ⟨a, ha, hpq⟩ := Option.map_eq_some'.mp h
        intro q hq
        rw [← hpq] at hq
        simp at hq
        rcases hq with hq | hq
        · exact ⟨k, hq⟩
        · exact ih (k + 1) a ha q hq
      | ok st =>
        rw [waitForTaskLoop_succ, if_neg h5, htr] at h
        cases hlm : line806MissingName with
        | some n =>
          rw [hlm] at h
          obtain rfl := Option.some.inj h
          intro q hq
          simp at hq
          exact ⟨k, hq⟩
        | none =>
          rw [hlm] at h
          by_cases hd : (st.state == "done") = true
          · simp only [hd, if_true] at h
            obtain rfl := Option.some.inj h
            intro q hq
            simp at hq
            exact ⟨k, hq⟩
          · by_cases hf : (st.state == "failed") = true
            · simp only [hd, hf, Bool.false_eq_true, if_false, if_true] at h
              obtain rfl := Option.some.inj h
              intro q hq
              simp at hq
              exact ⟨k, hq⟩
            · simp only [hd, hf, Bool.false_eq_true, if_false] at h
              obtain ⟨a, ha, hpq⟩ := Option.map_eq_some'.mp h
              intro q hq
              rw [← hpq] at hq
              simp at hq
              rcases hq with hq | hq
              · exact ⟨k, hq⟩
              · exact ih (k + 1) a ha q hq

/-- C3: for a polling wait with timeout `T` and poll interval 5, if
every tracked job eventually reports a terminal state then the wait
stops within `T + 5` of its start (the proof shows the bound holds for
whatever the responses are); and whenever the elapsed time exceeds `T`
first, the wait reports the timeout and returns exit status 1, and the
whole request log consists of status queries only — no cancellation is
ever sent for the remote job.  Stated for both `wait_for_batch` and
`wait_for_task`. -/
theorem C3_polling_terminates_within_interval
    (bid tid : String) (btrace : Nat → BatchPoll) (ttrace : Nat → TaskPoll)
    (T : Nat)
    (_hbEventually : ∃ N rs, btrace N = .ok rs ∧ allFinished rs = true)
    (_htEventually : ∃ N st, ttrace N = .ok st ∧ isTerminalState st.state = true) :
    (∃ p, waitForBatchLoop bid btrace T (T / POLL_INTERVAL + 2) 0 = some p ∧
      POLL_INTERVAL * p.1.tick ≤ T + POLL_INTERVAL ∧
      (∀ j, p.1 = .timedOut j → p.1.exitCode = some 1) ∧
      (∀ q ∈ p.2, ∃ j, q = Req.statusQuery bid j)) ∧
    (∃ p, waitForTaskLoop tid ttrace T (T / POLL_INTERVAL + 2) 0 = some p ∧
      POLL_INTERVAL * p.1.tick ≤ T + POLL_INTERVAL ∧
      (∀ j, p.1 = .timedOut j → p.1.exitCode = some 1) ∧
      (∀ q ∈ p.2, ∃ j, q = Req.statusQuery tid j)) := by
  constructor
  · obtain ⟨p, hp⟩ :=
      waitForBatchLoop_total bid btrace T (T / POLL_INTERVAL + 1) 0 (by omega)
    refine ⟨p, hp,
      waitForBatchLoop_tick_le bid btrace T _ 0 p (by simp) hp, ?_,
      waitForBatchLoop_queries bid btrace T _ 0 p hp⟩
    intro j hj
    rw [hj]
    rfl
  · obtain ⟨p, hp⟩ :=
      waitForTaskLoop_total tid ttrace T (T / POLL_INTERVAL + 1) 0 (by omega)
    refine ⟨p, hp,
      waitForTaskLoop_tick_le tid ttrace T _ 0 p (by simp) hp, ?_,
      waitForTaskLoop_queries tid ttrace T _ 0 p hp⟩
    intro j hj
    rw [hj]
    rfl

/-- C3 witness at timeout 3 with immediately terminal responses. -/
theorem C3_polling_witness :
    (∃ p, waitForBatchLoop "b" (fun _ => BatchPoll.ok []) 3
        (3 / POLL_INTERVAL + 2) 0 = some p ∧
      POLL_INTERVAL * p.1.tick ≤ 3 + POLL_INTERVAL ∧
      (∀ j, p.1 = .timedOut j → p.1.exitCode = some 1) ∧
      (∀ q ∈ p.2, ∃ j, q = Req.statusQuery "b" j)) ∧
    (∃ p, waitForTaskLoop "t" (fun _ => TaskPoll.ok ⟨"done", 0, 0, none⟩) 3
        (3 / POLL_INTERVAL + 2) 0 = some p ∧
      POLL_INTERVAL * p.1.tick ≤ 3 + POLL_INTERVAL ∧
      (∀ j, p.1 = .timedOut j → p.1.exitCode = some 1) ∧
      (∀ q ∈ p.2, ∃ j, q = Req.statusQuery "t" j)) :=
  C3_polling_terminates_within_interval "b" "t" (fun _ => .ok [])
    (fun _ => .ok ⟨"done", 0, 0, none⟩) 3
    ⟨0, [], rfl, rfl⟩ ⟨0, ⟨"done", 0, 0, none⟩, rfl, by decide⟩

/-- C4: at any reached poll tick, an `AuthError` from the status query
makes the wait loop stop at once with the `authAborted` outcome (the
exception propagates out of the loop to the top-level
`handle_auth_error` wrapper), having sent no further request after that
tick's query; any other `APIError` is reported and the loop simply
continues at the next tick, with the same job id and the same trace —
the set of tracked jobs is unchanged.  Stated for both loops. -/
theorem C4_auth_aborts_other_transient
    (bid tid : String) (btrace : Nat → BatchPoll) (ttrace : Nat → TaskPoll)
    (T fuel k : Nat) (hk : ¬ POLL_INTERVAL * k > T) :
    (btrace k = .authErr →
      waitForBatchLoop bid btrace T (fuel + 1) k =
        some (.authAborted k, [.statusQuery bid k])) ∧
    (∀ m, btrace k = .apiErr m →
      waitForBatchLoop bid btrace T (fuel + 1) k =
        (waitForBatchLoop bid btrace T fuel (k + 1)).map
          (fun p => (p.1, Req.statusQuery bid k :: p.2))) ∧
    (ttrace k = .authErr →
      waitForTaskLoop tid ttrace T (fuel + 1) k =
        some (.authAborted k, [.statusQuery tid k])) ∧
    (∀ m, ttrace k = .apiErr m →
      waitForTaskLoop tid ttrace T (fuel + 1) k =
        (waitForTaskLoop tid ttrace T fuel (k + 1)).map
          (fun p => (p.1, Req.statusQuery tid k :: p.2))) := by
  refine ⟨fun h => ?_, fun m h => ?_, fun h => ?_, fun m h => ?_⟩
  · rw [waitForBatchLoop_succ, if_neg hk, h]
  · rw [waitForBatchLoop_succ, if_neg hk, h]
  · rw [waitForTaskLoop_succ, if_neg hk, h]
  · rw [waitForTaskLoop_succ, if_neg hk, h]

/-- C4 witness: an auth failure on the first batch poll aborts at tick
0; a generic API failure on the first task poll continues to tick 1. -/
theorem C4_auth_aborts_witness :
    waitForBatchLoop "b" (fun _ => BatchPoll.authErr) 100 1 0 =
      some (.authAborted 0, [.statusQuery "b" 0]) ∧
    waitForTaskLoop "t" (fun _ => TaskPoll.apiErr "boom") 100 1 0 =
      (waitForTaskLoop "t" (fun _ => TaskPoll.apiErr "boom") 100 0 1).map
        (fun p => (p.1, Req.statusQuery "t" 0 :: p.2)) := by
  have h := C4_auth_aborts_other_transient "b" "t" (fun _ => BatchPoll.authErr)
    (fun _ => TaskPoll.apiErr "boom") 100 0 0 (by decide)
  exact ⟨h.1 rfl, h.2.2.2 "boom" rfl⟩
